import Mathlib

/-!
Verification development for the SIGCHI Publication-Tools repository.

The development shallowly embeds the two core components of the repository:

* the batch download engine of `pcs.py` (`download_file`, `download_files`),
* the chunked upload engine of `acm_dl.py` (`chunked`, `upload_file`,
  `commit_submission`, `upload_submission`, `get_uploaded_submissions`,
  `upload`).

File contents are modelled as lists of bytes (`List Nat`), the local
filesystem as a map from path to optional content, and the remote portals as
environments supplying the response to each request.  Every engine function
returns the list of observable events it performs (network requests, file
rewrites, log lines) together with its result; an uncaught Python exception
(failed `assert`, `RuntimeError`, `IndexError`) is modelled as
`Except.error`, which stops the enclosing loops exactly as an uncaught
exception terminates the script.  Log-line texts are abbreviated but keep the
information (such as the field name) that the source interpolates into them.
-/

namespace PubTools

/-- Bytes of a file, one `Nat` per byte. -/
abbrev Bytes := List Nat

/-! ### String helpers

Structural embeddings of the Python string operations the scripts use
(`str.startswith` / `str.removeprefix`, `str.endswith`, `str.split` with a
one-character separator, and the emptiness test of `str.strip`), defined on
the character list of a `String` so that they evaluate by kernel
reduction. -/

/-- Embedding of `str.startswith`. -/
def strStartsWith (s p : String) : Bool := p.data.isPrefixOf s.data

/-- Embedding of `str.endswith`. -/
def strEndsWith (s p : String) : Bool := p.data.isSuffixOf s.data

/-- Embedding of `str.removeprefix`: drops `p` from the front of `s` when
`s` starts with `p`, otherwise returns `s` unchanged. -/
def removePfx (s p : String) : String :=
  if strStartsWith s p then String.mk (s.data.drop p.data.length) else s

/-- Embedding of `str.split(sep)` for a one-character separator: the split
of a character list at every occurrence of `sep`; always returns at least
one (possibly empty) component, like Python's `split`. -/
def splitOnChar (sep : Char) : List Char → List (List Char)
  | [] => [[]]
  | c :: cs =>
    match splitOnChar sep cs with
    | [] => [[]]
    | g :: gs => if c = sep then [] :: g :: gs else (c :: g) :: gs

/-- The `/` character. -/
def slashChar : Char := '/'

/-- Embedding of `s.split("/")[-1]`: the part of `s` after its last slash
(all of `s` when it contains no slash). -/
def lastSlashPart (s : String) : String :=
  String.mk ((splitOnChar slashChar s.data).getLast!)

/-- Embedding of `len(s.strip()) == 0`: `s` is empty or all whitespace. -/
def isBlankStr (s : String) : Bool := s.data.all Char.isWhitespace

/-- The local filesystem: maps a path to the content of the file stored
there, or `none` when no file exists at that path. -/
abbrev FS := String → Option Bytes

/-- Point update of the filesystem, as performed by `open(path, 'wb')`
followed by writing `content`. -/
def updateFS (fs : FS) (path : String) (content : Bytes) : FS :=
  fun p => if p = path then some content else fs p

/-! ## Download engine (`pcs.py`) -/

/-- Observable events of the download engine: `urlOpen` is a `urlopen`
call (the request that learns the `Content-Length`), `readBody` is the
streaming of a response body, `note` is a console log line. -/
inductive DEv where
  | urlOpen (url : String)
  | readBody (url : String)
  | note (msg : String)
deriving Repr, DecidableEq

/-- The remote side seen by the download engine: for each URL either the
body of a successful response (with `Content-Length` equal to its length) or
`none` when `urlopen` raises (`HTTPError` for a rejected URL or gone
resource, `ValueError` for a malformed URL or missing header). -/
structure DlEnv where
  remote : String → Option Bytes

/-- One file-type descriptor row of the `_fields.csv` configuration table,
with the columns the download engine reads. -/
structure DlFT where
  pcs_field : String
  directory : String
  suffix : String
  description : String
deriving Repr, DecidableEq

/-- One paper record: an association list from field name to string value,
as produced by `csv.DictReader`.  A missing key models a column absent from
the CSV schema (Python raises `KeyError` on access). -/
abbrev Record := List (String × String)

/-- Embedding of `pcs.py`'s `download_file(paper_id, url, filename, mode)`.
Returns the events performed, the resulting filesystem, and the boolean the
Python function returns (`False` exactly when the `except (ValueError,
HTTPError)` handler ran, after logging "file not found on server"). -/
def download_file (env : DlEnv) (fs : FS) (paper_id url filename mode : String) :
    List DEv × FS × Bool :=
  if mode = "only new" then
    if (fs filename).isSome then
      ([DEv.note "already downloaded"], fs, true)
    else
      match env.remote url with
      | none => ([DEv.urlOpen url, DEv.note "file not found on server"], fs, false)
      | some body => ([DEv.urlOpen url, DEv.readBody url], updateFS fs filename body, true)
  else if mode = "only modified" then
    match env.remote url with
    | none => ([DEv.urlOpen url, DEv.note "file not found on server"], fs, false)
    | some body =>
      match fs filename with
      | some localContent =>
        if localContent.length = body.length then
          ([DEv.urlOpen url, DEv.note "already downloaded"], fs, true)
        else
          ([DEv.urlOpen url, DEv.readBody url], updateFS fs filename body, true)
      | none =>
        ([DEv.urlOpen url, DEv.readBody url], updateFS fs filename body, true)
  else
    match env.remote url with
    | none => ([DEv.urlOpen url, DEv.note "file not found on server"], fs, false)
    | some body => ([DEv.urlOpen url, DEv.readBody url], updateFS fs filename body, true)

/-- Embedding of the per-(record, descriptor) body of the `for filetype in
filetypes` loop of `download_files` (the `try`/`except KeyError` block).
Returns events, the filesystem, and `false` exactly when the loop executes
`return idx` (a failed download).  A `KeyError` on any of the dictionary
accesses inside the `try` is caught and logged with the descriptor's field
name, and processing continues. -/
def processField (env : DlEnv) (conf_id : String) (fs : FS) (sub : Record)
    (ft : DlFT) (mode : String) : List DEv × FS × Bool :=
  match sub.lookup ft.pcs_field with
  | none => ([DEv.note ("field " ++ ft.pcs_field ++ " not in CSV")], fs, true)
  | some v =>
    if 1 < v.length then
      match sub.lookup "Paper ID" with
      | none => ([DEv.note ("field " ++ ft.pcs_field ++ " not in CSV")], fs, true)
      | some paper_id =>
        let filename := conf_id ++ "_" ++ ft.directory ++ "/" ++ paper_id ++ ft.suffix
        let res := download_file env fs paper_id v filename mode
        if res.2.2 then
          (DEv.note ("Retrieving " ++ ft.description) :: res.1, res.2.1, true)
        else
          (DEv.note ("Retrieving " ++ ft.description) :: res.1 ++ [DEv.note "failed"],
           res.2.1, false)
    else
      ([DEv.note (ft.description ++ " not submitted")], fs, true)

/-- The inner `for filetype in filetypes` loop of `download_files` for one
record: processes descriptors in order, stopping early (result `false`)
when a download fails. -/
def processFields (env : DlEnv) (conf_id mode : String) (fs : FS) (sub : Record) :
    List DlFT → List DEv × FS × Bool
  | [] => ([], fs, true)
  | ft :: rest =>
    let res := processField env conf_id fs sub ft mode
    if res.2.2 then
      let res' := processFields env conf_id mode res.2.1 sub rest
      (res.1 ++ res'.1, res'.2.1, res'.2.2)
    else
      (res.1, res.2.1, false)

/-- The outer `for idx, submission in enumerate(submissions)` loop of
`download_files`.  `Except.error` models the uncaught `KeyError` raised by
the header print when a record lacks `Paper ID` or `Title`; `Except.ok
(some idx)` models `return idx` after a failed download; `Except.ok none`
models falling off the end of the loop (the function returns `None`). -/
def downloadLoop (env : DlEnv) (conf_id : String) (filetypes : List DlFT)
    (mode : String) (fs : FS) (idx start_index : Nat) :
    List Record → List DEv × FS × Except String (Option Nat)
  | [] => ([], fs, Except.ok none)
  | sub :: rest =>
    match sub.lookup "Paper ID", sub.lookup "Title" with
    | some pid, some title =>
      let header := DEv.note ("[" ++ toString idx ++ "] Paper: " ++ pid ++ " (" ++ title ++ ")")
      if idx < start_index then
        let res := downloadLoop env conf_id filetypes mode fs (idx + 1) start_index rest
        (header :: DEv.note "skipping" :: res.1, res.2.1, res.2.2)
      else
        let res := processFields env conf_id mode fs sub filetypes
        if res.2.2 then
          let res' := downloadLoop env conf_id filetypes mode res.2.1 (idx + 1) start_index rest
          (header :: res.1 ++ res'.1, res'.2.1, res'.2.2)
        else
          (header :: res.1, res.2.1, Except.ok (some idx))
    | _, _ => ([], fs, Except.error "KeyError")

/-- Embedding of `pcs.py`'s `download_files(start_index, mode)`, restricted
to its record/descriptor iteration (the caller-side flag parsing and
directory creation that precede the loop are outside the modelled
fragment; the selected descriptors and the parsed records are passed in). -/
def download_files (env : DlEnv) (conf_id : String) (fs : FS)
    (submissions : List Record) (filetypes : List DlFT)
    (start_index : Nat) (mode : String) :
    List DEv × FS × Except String (Option Nat) :=
  downloadLoop env conf_id filetypes mode fs 0 start_index submissions

/-! ## Upload engine (`acm_dl.py`) -/

/-- Observable events of the upload engine. `tokenGet` is the GET of the
token page performed by `get_token`; `vttConvert` is an invocation of
`srt_to_vtt` on a local path; `initiate` is the initial POST of
`upload_file`; `chunk` is one PATCH of the chunk loop with the
`Upload-Offset` and `Content-Length` header values it carries; `commit` is
the POST of `commit_submission` with the DOI and the `file-name-N` /
`file-url-N` pairs; `note` is a console log line. -/
inductive UEv where
  | tokenGet
  | vttConvert (path : String)
  | initiate (upload_filename : String)
  | chunk (offset length : Nat)
  | commit (doi : String) (filenames_urls : List (String × String))
  | note (msg : String)
deriving Repr, DecidableEq

/-- The remote portals and the external caption library seen by the upload
engine: the token embedded in the token page (or `none` when the
`data-token` pattern is absent), the status codes of the initiate POST,
each chunk PATCH (by chunk index) and the commit POST, the `Location`
header of the initiate response, the effect of the `webvtt` conversion on
a file's bytes, and the `DOI_FALLBACK` table of `taps_procs.csv`. -/
structure UEnv where
  token : Option String
  initiateStatus : Nat
  initiateLocation : String
  chunkStatus : Nat → Nat
  commitStatus : Nat
  vtt : Bytes → Bytes
  doiFallback : String → String

/-- One file-type descriptor row of the `_fields.csv` table, with the
columns the upload engine reads. -/
structure UFT where
  upload_to_dl : String
  description : String
  suffix : String
  directory : String
  mimetype : String
  ready_field : String
deriving Repr, DecidableEq

/-- `CHUNK_SIZE = 5*1024*1024` from `acm_dl.py`. -/
def CHUNK_SIZE : Nat := 5 * 1024 * 1024

/-- `UPLOADER_NAME` constant from `acm_dl.py`. -/
def UPLOADER_NAME : String := "Raphael Wimmer (CHI \x2723 Proceedings Team)"

/-- `UPLOADER_EMAIL` constant from `acm_dl.py`. -/
def UPLOADER_EMAIL : String := "raphael.wimmer@ur.de"

/-- Recursion core of `chunked`: each nonempty `read` consumes at least one
byte, so the iteration is bounded by the file length, supplied here as
structural fuel so that the function evaluates by kernel reduction.  The
fuel-exhaustion branch is unreachable when the fuel is at least the data
length and the chunk size is positive. -/
def chunkedAux (c : Nat) : Nat → Bytes → List Bytes
  | _, [] => []
  | 0, _ => []
  | fuel + 1, a :: as => (a :: as).take c :: chunkedAux c fuel ((a :: as).drop c)

/-- Embedding of `acm_dl.py`'s `chunked(fd, chunk_size)` generator: the
list of chunks produced by repeatedly calling `fd.read(chunk_size)` on a
file with content `data` until the read returns empty.  `read(0)` returns
the empty bytes object, so a zero chunk size yields no chunks. -/
def chunked (data : Bytes) (chunk_size : Nat) : List Bytes :=
  if chunk_size = 0 then [] else chunkedAux chunk_size data.length data

/-- Embedding of `get_token()`: a GET of the token page (always performed),
followed by extraction of the embedded token; when the token pattern is
absent the function raises (`RuntimeError` / the failed match), which is
fatal. -/
def get_token (env : UEnv) : List UEv × Except String String :=
  match env.token with
  | some t => ([UEv.tokenGet], Except.ok t)
  | none => ([UEv.tokenGet], Except.error "RuntimeError: token not available")

/-- The `for chunk in chunked(...)` loop of `upload_file`: sends one PATCH
per chunk carrying the current offset and the chunk's length, advances the
offset by the chunk length, and asserts status 204 after each PATCH
(`Except.error` models the failed assert aborting the function). -/
def sendChunks (env : UEnv) (i offset : Nat) : List Bytes → List UEv × Except String Unit
  | [] => ([], Except.ok ())
  | ch :: rest =>
    let ev := UEv.chunk offset ch.length
    if env.chunkStatus i = 204 then
      let res := sendChunks env (i + 1) (offset + ch.length) rest
      (ev :: res.1, res.2)
    else
      ([ev], Except.error "AssertionError: chunk status != 204")

/-- Embedding of `upload_file(token, path, filename, upload_filename,
filetype, author, email, doi, description)` on a file with content
`content`: the initiate POST with the metadata headers and total length,
the assert on status 201 (`Except.error` on violation), then the chunk
loop, returning the `Location` upload path on success.  The metadata
arguments are carried for fidelity to the source signature; they travel in
the request headers and do not influence control flow. -/
def upload_file (env : UEnv) (token : String) (content : Bytes)
    (filename upload_filename filetype author email doi description : String) :
    List UEv × Except String String :=
  let ev0 := UEv.initiate upload_filename
  if env.initiateStatus = 201 then
    let res := sendChunks env 0 0 (chunked content CHUNK_SIZE)
    match res.2 with
    | Except.ok _ => (ev0 :: res.1, Except.ok env.initiateLocation)
    | Except.error e => (ev0 :: res.1, Except.error e)
  else
    ([ev0], Except.error "AssertionError: initiate status != 201")

/-- Embedding of `commit_submission(author, email, doi, description,
filenames_urls)`: one POST to the submit endpoint carrying the metadata
and the indexed `file-name-N` / `file-url-N` pairs, asserting status
200. -/
def commit_submission (env : UEnv) (author email doi description : String)
    (filenames_urls : List (String × String)) : List UEv × Except String Bool :=
  let ev := UEv.commit doi filenames_urls
  if env.commitStatus = 200 then ([ev], Except.ok true)
  else ([ev], Except.error "AssertionError: commit status != 200")

/-- Embedding of `srt_to_vtt(filename)` applied to a file with content
`content`: the conversion is invoked on the path and the file's bytes are
rewritten by the `webvtt` library's read/convert/save round trip, whose
effect on the bytes is the environment's abstract `vtt` transform (the
transform is the identity on files the library leaves untouched). -/
def srt_to_vtt (env : UEnv) (fs : FS) (filename : String) (content : Bytes) :
    List UEv × FS × Bytes :=
  ([UEv.vttConvert filename], updateFS fs filename (env.vtt content), env.vtt content)

/-- State threaded through the `for filetype in filetypes` loop of
`upload_submission`: the `token` local variable (`none` models Python's
`None`) and the local filesystem. -/
structure UState where
  token : Option String
  fs : FS

/-- Embedding of the per-descriptor body of the `for filetype in filetypes`
loop of `upload_submission`: the `upload_to_dl` policy gate, the agreement
gate, the local-file gate, the in-place VTT conversion, lazy token
acquisition, the already-uploaded deduplication gate, and finally
`upload_file` plus `commit_submission`.  `Except.error` models an uncaught
exception (failed assert or missing token) aborting the run. -/
def processFiletype (env : UEnv) (track_id : String) (sub : String → String)
    (doi doi_part : String) (already_uploaded_files : List String)
    (st : UState) (ft : UFT) : List UEv × Except String UState :=
  if ft.upload_to_dl = "no" then
    ([UEv.note ("Skipping " ++ ft.description ++ ": not to be uploaded to DL")],
     Except.ok st)
  else if ft.upload_to_dl ≠ "yes" ∧ sub ft.upload_to_dl = "" then
    ([UEv.note ("Skipping " ++ ft.description ++ ": no agreement from authors")],
     Except.ok st)
  else
    let filename := sub "Paper ID" ++ ft.suffix
    let upload_filename := doi_part ++ ft.suffix
    let filepath := track_id ++ "_" ++ ft.directory ++ "/" ++ filename
    match st.fs filepath with
    | none => ([UEv.note ("No file for " ++ filepath)], Except.ok st)
    | some content =>
      let vttRes :=
        if strEndsWith filepath ".vtt" then srt_to_vtt env st.fs filepath content
        else ([], st.fs, content)
      let tokRes :=
        match st.token with
        | some t => (([] : List UEv), Except.ok t)
        | none => get_token env
      match tokRes.2 with
      | Except.error e => (vttRes.1 ++ tokRes.1, Except.error e)
      | Except.ok tok =>
        if upload_filename ∈ already_uploaded_files then
          (vttRes.1 ++ tokRes.1 ++ [UEv.note ("Already uploaded " ++ upload_filename)],
           Except.ok ⟨some tok, vttRes.2.1⟩)
        else
          let upRes := upload_file env tok vttRes.2.2 filename upload_filename
            ft.mimetype UPLOADER_NAME UPLOADER_EMAIL doi ft.description
          match upRes.2 with
          | Except.error e => (vttRes.1 ++ tokRes.1 ++ upRes.1, Except.error e)
          | Except.ok url =>
            let cRes := commit_submission env UPLOADER_NAME UPLOADER_EMAIL doi
              ft.description [(upload_filename, url)]
            match cRes.2 with
            | Except.error e =>
              (vttRes.1 ++ tokRes.1 ++ upRes.1 ++ cRes.1, Except.error e)
            | Except.ok _ =>
              (vttRes.1 ++ tokRes.1 ++ upRes.1 ++ cRes.1,
               Except.ok ⟨some tok, vttRes.2.1⟩)

/-- The `for filetype in filetypes` loop of `upload_submission`, threading
the token/filesystem state; an error from any descriptor aborts the
loop. -/
def processFiletypes (env : UEnv) (track_id : String) (sub : String → String)
    (doi doi_part : String) (already_uploaded_files : List String)
    (st : UState) : List UFT → List UEv × Except String UState
  | [] => ([], Except.ok st)
  | ft :: rest =>
    let res := processFiletype env track_id sub doi doi_part already_uploaded_files st ft
    match res.2 with
    | Except.error e => (res.1, Except.error e)
    | Except.ok st' =>
      let res' := processFiletypes env track_id sub doi doi_part already_uploaded_files st' rest
      (res.1 ++ res'.1, res'.2)

/-- Embedding of `upload_submission(track_id, sub, filetypes,
already_uploaded_files)`: the ready-field gate on the first descriptor,
the DOI fallback and the two asserts on the DOI, then the descriptor loop
starting with `token = None`.  Returns the events and, on normal return,
the final filesystem. -/
def upload_submission (env : UEnv) (track_id : String) (sub : String → String)
    (filetypes : List UFT) (already_uploaded_files : List String) (fs0 : FS) :
    List UEv × Except String FS :=
  match filetypes with
  | [] => ([], Except.error "IndexError: empty filetypes")
  | ft0 :: _ =>
    if 0 < ft0.ready_field.length ∧ sub ft0.ready_field = "" then
      ([UEv.note ("NOT READY " ++ sub "Paper ID")], Except.ok fs0)
    else
      let doiRaw := sub "DOI"
      let doi0 := if isBlankStr doiRaw then env.doiFallback (sub "Paper ID") else doiRaw
      if 0 < doi0.length then
        let doi := removePfx doi0 "https://doi.org/"
        let doi_part := lastSlashPart doi
        if 0 < doi_part.length then
          let res := processFiletypes env track_id sub doi doi_part
            already_uploaded_files ⟨none, fs0⟩ filetypes
          (UEv.note ("Uploading additional files for " ++ sub "Paper ID") :: res.1,
           match res.2 with
           | Except.ok st => Except.ok st.fs
           | Except.error e => Except.error e)
        else ([], Except.error "AssertionError: empty doi_part")
      else ([], Except.error "AssertionError: empty doi")

/-- One row of the portal's listing of already uploaded submissions, as
parsed from the HTML table by `get_uploaded_submissions`. -/
structure UploadRow where
  excluded : Bool
  paperId : String
  loadDate : String
  contact : String
  email : String
  doi : String
  fileDescription : String
  fileName : String
  fileURL : String
deriving Repr, DecidableEq

/-- Embedding of `get_uploaded_submissions(conf_id, include_excluded)`
applied to the parsed listing rows: returns all rows when
`include_excluded` is true, otherwise only the rows whose excluded flag is
not set.  The default of the Python keyword argument is `False`. -/
def get_uploaded_submissions (rows : List UploadRow) (include_excluded : Bool) :
    List UploadRow :=
  if include_excluded then rows else rows.filter (fun d => !d.excluded)

/-- The `for idx, submission in enumerate(...)` loop of `upload`, calling
`upload_submission` for each record; an error (uncaught exception) aborts
the loop. -/
def uploadLoop (env : UEnv) (track_id : String) (filetypes : List UFT)
    (already_uploaded_files : List String) (fs0 : FS) :
    List (String → String) → List UEv × Except String FS
  | [] => ([], Except.ok fs0)
  | sub :: rest =>
    let res := upload_submission env track_id sub filetypes already_uploaded_files fs0
    match res.2 with
    | Except.error e => (res.1, Except.error e)
    | Except.ok fs1 =>
      let res' := uploadLoop env track_id filetypes already_uploaded_files fs1 rest
      (res.1 ++ res'.1, res'.2)

/-- Embedding of `upload(track_id, filetypes)`: builds
`ALREADY_UPLOADED_FILES` from the file names of the non-excluded listing
rows (`get_uploaded_submissions` with its default `include_excluded =
False`), then processes the parsed submission records in order. -/
def upload (env : UEnv) (rows : List UploadRow) (track_id : String)
    (submissions : List (String → String)) (filetypes : List UFT) (fs0 : FS) :
    List UEv × Except String FS :=
  let already := (get_uploaded_submissions rows false).map UploadRow.fileName
  uploadLoop env track_id filetypes already fs0 submissions

/-! ## Observational predicates used by the claims -/

/-- Events that constitute an upload attempt for a candidate: the initiate
POST, a chunk PATCH, or the commit POST. -/
def isUploadAttempt : UEv → Bool
  | UEv.initiate _ => true
  | UEv.chunk _ _ => true
  | UEv.commit _ _ => true
  | _ => false

/-- No event of the trace is part of an upload attempt. -/
def noUploadAttempt (evs : List UEv) : Bool := evs.all (fun e => !isUploadAttempt e)

/-- Events of the upload engine that are network requests. -/
def isNetworkEv : UEv → Bool
  | UEv.tokenGet => true
  | UEv.initiate _ => true
  | UEv.chunk _ _ => true
  | UEv.commit _ _ => true
  | _ => false

/-- No event of the trace is a network request. -/
def noNetworkEv (evs : List UEv) : Bool := evs.all (fun e => !isNetworkEv e)

/-- The Upload-Offset values of the chunk PATCH events of a trace, in
order. -/
def chunkOffsetsOf (evs : List UEv) : List Nat :=
  evs.filterMap (fun e => match e with | UEv.chunk o _ => some o | _ => none)

/-- Modelled from the spec's words, for comparison with the code: the
claimed Upload-Offset sequence "0, C, 2C, ..., S - (S mod C)", read as the
multiples of C up to and including the stated endpoint S - (S mod C). -/
def specOffsets (S C : Nat) : List Nat :=
  (List.range (S / C + 1)).map (fun j => j * C)

/-! ## Concrete material for witnesses and counterexamples -/

/-- Concrete download environment: one good URL with a three-byte body,
every other URL fails. -/
def wDlEnv : DlEnv :=
  ⟨fun u => if u = "http://good" then some [1, 2, 3] else none⟩

/-- Empty local filesystem. -/
def wFsE : FS := fun _ => none

/-- Concrete download descriptor reading the `video` field. -/
def wFtDl : DlFT := ⟨"video", "V", ".mp4", "Video"⟩

/-- Record whose video URL fails on the remote side. -/
def wSubBad : Record := [("Paper ID", "p1"), ("Title", "t1"), ("video", "http://bad")]

/-- Record whose video URL succeeds. -/
def wSubGood : Record := [("Paper ID", "p2"), ("Title", "t2"), ("video", "http://good")]

/-- Record whose video field holds two spaces. -/
def wSubWS : Record := [("Paper ID", "p1"), ("Title", "t1"), ("video", "  ")]

/-- Concrete upload environment where every request succeeds. -/
def wEnvOK : UEnv :=
  ⟨some "TOK", 201, "https://files.example/loc1", fun _ => 204, 200,
   fun b => 9 :: b, fun _ => "10.9999/fb.1"⟩

/-- The same upload environment with a failing initiate POST. -/
def wEnvBad : UEnv := { wEnvOK with initiateStatus := 500 }

/-- Concrete video descriptor, always uploaded. -/
def wFtVideo : UFT := ⟨"yes", "Video Figure", ".mp4", "VID", "video/mp4", ""⟩

/-- Concrete caption descriptor, always uploaded. -/
def wFtCaption : UFT := ⟨"yes", "Captions", ".vtt", "SUB", "text/vtt", ""⟩

/-- Concrete descriptor requiring the `consent` agreement field. -/
def wFtAgree : UFT := ⟨"consent", "Video Figure", ".mp4", "VID", "video/mp4", ""⟩

/-- Concrete paper record with the given paper id and a direct DOI. -/
def wSub (pid : String) : String → String :=
  fun k => if k = "Paper ID" then pid
    else if k = "DOI" then "https://doi.org/10.1145/1." ++ pid else ""

/-- Like `wSub "p1"` but with the `consent` field set. -/
def wSubConsent : String → String :=
  fun k => if k = "consent" then "yes" else wSub "p1" k

/-- Filesystem holding video files for `p1` and `p2`. -/
def wFs : FS :=
  fun p => if p = "tr_VID/p1.mp4" then some [1, 2]
    else if p = "tr_VID/p2.mp4" then some [3] else none

/-- Filesystem holding a caption file for `p1`. -/
def wFsV : FS := fun p => if p = "tr_SUB/p1.vtt" then some [7] else none

/-- Whether an event is the token-page GET. -/
def isTokenGet : UEv → Bool
  | UEv.tokenGet => true
  | _ => false

/-- Number of token-page GETs in a trace. -/
def tokenGetCount (evs : List UEv) : Nat := evs.countP isTokenGet

/-- Potential of the loop state: 1 while no token is held, 0 afterwards. -/
def tokenPotential (st : UState) : Nat := if st.token.isSome then 0 else 1

/-! ## Helper lemmas about `chunked` and `sendChunks` -/

/-- The fuel argument of `chunkedAux` does not matter once it covers the
data length (for a positive chunk size). -/
theorem chunkedAux_fuel (c : Nat) (hc : c ≠ 0) :
    ∀ (fuel₁ : Nat) (data : Bytes) (fuel₂ : Nat),
      data.length ≤ fuel₁ → data.length ≤ fuel₂ →
      chunkedAux c fuel₁ data = chunkedAux c fuel₂ data := by
  intro fuel₁
  induction fuel₁ with
  | zero =>
    intro data fuel₂ h1 h2
    have hdata : data = [] := List.eq_nil_of_length_eq_zero (Nat.le_zero.mp h1)
    subst hdata
    cases fuel₂ <;> rfl
  | succ n ih =>
    intro data fuel₂ h1 h2
    cases data with
    | nil => cases fuel₂ <;> rfl
    | cons a as =>
      cases fuel₂ with
      | zero => simp at h2
      | succ m =>
        simp only [chunkedAux]
        congr 1
        apply ih
        · simp only [List.length_drop, List.length_cons]
          simp only [List.length_cons] at h1
          omega
        · simp only [List.length_drop, List.length_cons]
          simp only [List.length_cons] at h2
          omega

/-- A zero read at once ends the generator. -/
theorem chunked_nil (c : Nat) : chunked [] c = [] := by
  simp [chunked, chunkedAux]

/-- Unfolding equation of `chunked` on nonempty data with a positive chunk
size: one full read, then the generator continues on the rest. -/
theorem chunked_cons (c : Nat) (hc : c ≠ 0) (a : Nat) (as : Bytes) :
    chunked (a :: as) c = (a :: as).take c :: chunked ((a :: as).drop c) c := by
  unfold chunked
  rw [if_neg hc, if_neg hc]
  simp only [List.length_cons, chunkedAux]
  congr 1
  apply chunkedAux_fuel c hc
  · simp only [List.length_drop, List.length_cons]
    omega
  · exact Nat.le_refl _

/-- The chunks concatenate back to the file content. -/
theorem chunked_flatten (c : Nat) (hc : c ≠ 0) :
    ∀ (n : Nat) (data : Bytes), data.length ≤ n → (chunked data c).flatten = data := by
  intro n
  induction n with
  | zero =>
    intro data h
    have hdata : data = [] := List.eq_nil_of_length_eq_zero (Nat.le_zero.mp h)
    subst hdata
    simp [chunked_nil]
  | succ n ih =>
    intro data h
    cases data with
    | nil => simp [chunked_nil]
    | cons a as =>
      rw [chunked_cons c hc]
      simp only [List.flatten_cons]
      rw [ih]
      · exact List.take_append_drop c (a :: as)
      · simp only [List.length_drop, List.length_cons]
        simp only [List.length_cons] at h
        omega

/-- The chunk lengths sum to the file size. -/
theorem chunked_length_sum (c : Nat) (hc : c ≠ 0) (data : Bytes) :
    ((chunked data c).map List.length).sum = data.length := by
  have h := chunked_flatten c hc data.length data (Nat.le_refl _)
  calc ((chunked data c).map List.length).sum
      = (chunked data c).flatten.length := (List.length_flatten _).symm
    _ = data.length := by rw [h]

/-- Event trace of the chunk loop when every PATCH returns 204: one chunk
event per chunk, with offsets advancing by the chunk size and the final
chunk carrying the remainder. -/
theorem sendChunks_chunked (env : UEnv) (h204 : ∀ i, env.chunkStatus i = 204)
    (c : Nat) (hc : c ≠ 0) :
    ∀ (n : Nat) (data : Bytes), data.length ≤ n → data ≠ [] → ∀ (i o : Nat),
      (sendChunks env i o (chunked data c)).1 =
        (List.range ((data.length + c - 1) / c)).map
          (fun j => UEv.chunk (o + j * c) (min c (data.length - j * c))) := by
  intro n
  induction n with
  | zero =>
    intro data h hne i o
    cases data with
    | nil => exact absurd rfl hne
    | cons a as => simp at h
  | succ n ih =>
    intro data h hne i o
    cases data with
    | nil => exact absurd rfl hne
    | cons a as =>
      rw [chunked_cons c hc]
      by_cases hS : (a :: as).length ≤ c
      · have hdrop : (a :: as).drop c = [] := List.drop_eq_nil_of_le hS
        rw [hdrop, chunked_nil]
        have hS' : as.length + 1 ≤ c := by simpa using hS
        have hk : ((a :: as).length + c - 1) / c = 1 := by
          have hlen : (a :: as).length = as.length + 1 := by simp
          rw [hlen]
          apply Nat.div_eq_of_lt_le
          · omega
          · omega
        rw [hk]
        simp [sendChunks, h204 i, List.length_take, List.range_succ]
      · push_neg at hS
        have hdrop_ne : (a :: as).drop c ≠ [] := by
          intro hnil
          have hlen := congrArg List.length hnil
          simp only [List.length_drop, List.length_cons, List.length_nil] at hlen
          simp only [List.length_cons] at hS
          omega
        have hdl : ((a :: as).drop c).length ≤ n := by
          simp only [List.length_drop, List.length_cons]
          simp only [List.length_cons] at h
          omega
        have htl : ((a :: as).take c).length = c := by
          rw [List.length_take]
          simp only [List.length_cons] at hS ⊢
          omega
        simp only [sendChunks, h204 i, if_pos]
        rw [htl, ih _ hdl hdrop_ne (i + 1) (o + c)]
        have hdlen : ((a :: as).drop c).length = (a :: as).length - c := by
          simp [List.length_drop]
        rw [hdlen]
        have hk : ((a :: as).length + c - 1) / c
            = (((a :: as).length - c) + c - 1) / c + 1 := by
          have h1 : (a :: as).length + c - 1 = (((a :: as).length - c) + c - 1) + c := by
            simp only [List.length_cons] at hS ⊢
            omega
          rw [h1, Nat.add_div_right _ (Nat.pos_of_ne_zero hc)]
        rw [hk, List.range_succ_eq_map]
        simp only [List.map_cons, List.map_map]
        congr 1
        · simp only [Nat.zero_mul, Nat.add_zero, Nat.sub_zero]
          congr 1
          omega
        · apply List.map_congr_left
          intro j hj
          simp only [Function.comp_apply, Nat.succ_mul]
          have hjc : (a :: as).length - (j * c + c) = (a :: as).length - c - j * c := by
            omega
          congr 1
          · omega
          · rw [hjc]

/-- The ceiling division in the chunk-count formula, with the last chunk
length expressed through the remainder as the spec does. -/
theorem min_last_chunk (c S : Nat) (hc : c ≠ 0) (hS : 0 < S) :
    min c (S - ((S + c - 1) / c - 1) * c) = if S % c = 0 then c else S % c := by
  have hcp : 0 < c := Nat.pos_of_ne_zero hc
  have hqr : c * (S / c) + S % c = S := Nat.div_add_mod S c
  have hr : S % c < c := Nat.mod_lt _ hcp
  by_cases hr0 : S % c = 0
  · rw [if_pos hr0]
    rw [hr0, Nat.add_zero] at hqr
    rcases hq : S / c with _ | q'
    · rw [hq] at hqr
      simp at hqr
      omega
    · rw [hq] at hqr
      rw [Nat.mul_succ] at hqr
      have hk : (S + c - 1) / c = q' + 1 := by
        have h1 : S + c - 1 = c * (q' + 1) + (c - 1) := by
          rw [Nat.mul_succ]
          omega
        rw [h1, Nat.mul_add_div hcp]
        have h2 : (c - 1) / c = 0 := Nat.div_eq_of_lt (by omega)
        omega
      rw [hk]
      simp only [Nat.add_sub_cancel]
      rw [Nat.mul_comm q' c]
      omega
  · rw [if_neg hr0]
    have hk : (S + c - 1) / c = S / c + 1 := by
      have h1 : S + c - 1 = c * (S / c) + (S % c + c - 1) := by omega
      rw [h1, Nat.mul_add_div hcp]
      have h2 : (S % c + c - 1) / c = 1 := by
        apply Nat.div_eq_of_lt_le
        · omega
        · omega
      omega
    rw [hk]
    simp only [Nat.add_sub_cancel]
    rw [Nat.mul_comm (S / c) c]
    omega

/-! ## Token-acquisition counting -/

theorem tokenGetCount_append (l₁ l₂ : List UEv) :
    tokenGetCount (l₁ ++ l₂) = tokenGetCount l₁ + tokenGetCount l₂ :=
  List.countP_append _ _ _

theorem sendChunks_tokenGetCount (env : UEnv) :
    ∀ (chs : List Bytes) (i o : Nat), tokenGetCount (sendChunks env i o chs).1 = 0 := by
  intro chs
  induction chs with
  | nil => intro i o; rfl
  | cons ch rest ih =>
    intro i o
    simp only [sendChunks]
    split
    · have h := ih (i + 1) (o + ch.length)
      simp only [tokenGetCount, List.countP_cons, isTokenGet] at h ⊢
      simpa using h
    · simp [tokenGetCount, List.countP_cons, isTokenGet]

theorem upload_file_tokenGetCount (env : UEnv) (token : String) (content : Bytes)
    (fn ufn ftp au em dd de : String) :
    tokenGetCount (upload_file env token content fn ufn ftp au em dd de).1 = 0 := by
  simp only [upload_file]
  split
  · have hs := sendChunks_tokenGetCount env (chunked content CHUNK_SIZE) 0 0
    split <;>
    · simp only [tokenGetCount, List.countP_cons, isTokenGet] at hs ⊢
      simpa using hs
  · simp [tokenGetCount, List.countP_cons, isTokenGet]

theorem get_token_events (env : UEnv) : (get_token env).1 = [UEv.tokenGet] := by
  cases h : env.token <;> simp [get_token, h]

theorem tokenGetCount_nil : tokenGetCount [] = 0 := rfl

theorem tokenGetCount_cons (e : UEv) (l : List UEv) :
    tokenGetCount (e :: l) = tokenGetCount l + if isTokenGet e then 1 else 0 :=
  List.countP_cons _ _ _

theorem commit_submission_tokenGetCount (env : UEnv) (a b c d : String)
    (l : List (String × String)) :
    tokenGetCount (commit_submission env a b c d l).1 = 0 := by
  simp only [commit_submission]
  split <;> simp [tokenGetCount, List.countP_cons, isTokenGet]

theorem srt_to_vtt_events (env : UEnv) (fs : FS) (p : String) (content : Bytes) :
    (srt_to_vtt env fs p content).1 = [UEv.vttConvert p] := rfl

/-- With a token already held, the descriptor loop body performs no further
token-page GET. -/
theorem processFiletype_count_some (env : UEnv) (track_id : String)
    (sub : String → String) (doi doi_part : String) (already : List String)
    (fs : FS) (t : String) (ft : UFT) :
    tokenGetCount (processFiletype env track_id sub doi doi_part already ⟨some t, fs⟩ ft).1 = 0 := by
  simp only [processFiletype]
  repeat' split
  all_goals
    simp [tokenGetCount_append, tokenGetCount_cons, tokenGetCount_nil, isTokenGet,
      srt_to_vtt_events, upload_file_tokenGetCount, commit_submission_tokenGetCount]

/-- With a token already held, a normally returning descriptor loop body
keeps that token. -/
theorem processFiletype_keeps_token (env : UEnv) (track_id : String)
    (sub : String → String) (doi doi_part : String) (already : List String)
    (fs : FS) (t : String) (ft : UFT) :
    ∀ st', (processFiletype env track_id sub doi doi_part already ⟨some t, fs⟩ ft).2 =
      Except.ok st' → st'.token = some t := by
  intro st' h
  revert h
  simp only [processFiletype]
  repeat' split
  all_goals intro h
  all_goals
    first
      | (simp only [Except.ok.injEq] at h; subst h; rfl)
      | (simp at h)

/-- Without a token, the descriptor loop body performs at most one
token-page GET. -/
theorem processFiletype_count_none (env : UEnv) (track_id : String)
    (sub : String → String) (doi doi_part : String) (already : List String)
    (fs : FS) (ft : UFT) :
    tokenGetCount (processFiletype env track_id sub doi doi_part already ⟨none, fs⟩ ft).1 ≤ 1 := by
  simp only [processFiletype]
  repeat' split
  all_goals
    simp [tokenGetCount_append, tokenGetCount_cons, tokenGetCount_nil, isTokenGet,
      srt_to_vtt_events, get_token_events, upload_file_tokenGetCount,
      commit_submission_tokenGetCount]

/-- Without a token, a normally returning descriptor loop body that still
holds no token performed no token-page GET (it skipped before the token
step). -/
theorem processFiletype_none_skip (env : UEnv) (track_id : String)
    (sub : String → String) (doi doi_part : String) (already : List String)
    (fs : FS) (ft : UFT) :
    ∀ st', (processFiletype env track_id sub doi doi_part already ⟨none, fs⟩ ft).2 =
        Except.ok st' → st'.token = none →
      tokenGetCount (processFiletype env track_id sub doi doi_part already ⟨none, fs⟩ ft).1 = 0 := by
  intro st' h hnone
  revert h
  simp only [processFiletype]
  repeat' split
  all_goals intro h
  all_goals
    first
      | (simp only [Except.ok.injEq] at h; subst h;
         simp [tokenGetCount_append, tokenGetCount_cons, tokenGetCount_nil, isTokenGet,
           srt_to_vtt_events, get_token_events]
         done)
      | (simp only [Except.ok.injEq] at h; subst h; simp at hnone)
      | (simp at h)

/-- Across the whole descriptor loop of one record, the number of
token-page GETs is bounded by the state's token potential: one while no
token is held, zero afterwards. -/
theorem processFiletypes_count (env : UEnv) (track_id : String)
    (sub : String → String) (doi doi_part : String) (already : List String) :
    ∀ (fts : List UFT) (st : UState),
      tokenGetCount (processFiletypes env track_id sub doi doi_part already st fts).1 ≤
        tokenPotential st := by
  intro fts
  induction fts with
  | nil =>
    intro st
    simp [processFiletypes, tokenGetCount_nil]
  | cons ft rest ih =>
    intro st
    simp only [processFiletypes]
    split
    · rename_i e heq
      obtain ⟨tok, fs⟩ := st
      rcases tok with _ | t
      · exact le_trans (processFiletype_count_none env track_id sub doi doi_part already fs ft)
          (by simp [tokenPotential])
      · simp [processFiletype_count_some env track_id sub doi doi_part already fs t ft,
          tokenPotential]
    · rename_i st' heq
      rw [tokenGetCount_append]
      obtain ⟨tok, fs⟩ := st
      rcases tok with _ | t
      · rcases hst' : st'.token with _ | t'
        · have h1 := processFiletype_none_skip env track_id sub doi doi_part already fs ft
            st' heq hst'
          have h2 := ih st'
          simp [tokenPotential, hst'] at h2 ⊢
          omega
        · have h1 := processFiletype_count_none env track_id sub doi doi_part already fs ft
          have h2 := ih st'
          simp [tokenPotential, hst'] at h2 ⊢
          omega
      · have h1 := processFiletype_count_some env track_id sub doi doi_part already fs t ft
        have h2 := processFiletype_keeps_token env track_id sub doi doi_part already fs t ft
          st' heq
        have h3 := ih st'
        simp [tokenPotential, h2] at h3
        simp [tokenPotential, h1]
        omega

/-! ## Claim C2 -/

/-- C2 counterexample: a run over two paper records, each with one eligible
file, performs the token-page GET twice — the token local variable is reset
to `None` at the start of `upload_submission`, so the token is not shared
across records and is acquired more than once per run. -/
theorem c2_counterexample :
    tokenGetCount (upload wEnvOK [] "tr" [wSub "p1", wSub "p2"] [wFtVideo] wFs).1 = 2 ∧
    ¬ tokenGetCount (upload wEnvOK [] "tr" [wSub "p1", wSub "p2"] [wFtVideo] wFs).1 ≤ 1 := by
  exact ⟨by decide, by decide⟩

/-- C2 (amended): within the processing of one paper record the upload
token is acquired lazily and at most once — `upload_submission` performs at
most one token-page GET, shared by all files of that record; it is not
shared across the records of a run. -/
theorem note_processFiletypes_count (env : UEnv) (track_id : String)
    (sub : String → String) (d p s : String) (already : List String)
    (fts : List UFT) (fs0 : FS) :
    tokenGetCount (UEv.note s ::
      (processFiletypes env track_id sub d p already ⟨none, fs0⟩ fts).1) ≤ 1 := by
  rw [tokenGetCount_cons]
  have h := processFiletypes_count env track_id sub d p already fts ⟨none, fs0⟩
  simp [tokenPotential] at h
  simp [isTokenGet]
  omega

theorem c2_theorem (env : UEnv) (track_id : String) (sub : String → String)
    (filetypes : List UFT) (already : List String) (fs0 : FS) :
    tokenGetCount (upload_submission env track_id sub filetypes already fs0).1 ≤ 1 := by
  simp only [upload_submission]
  repeat' split
  all_goals
    first
      | exact note_processFiletypes_count _ _ _ _ _ _ _ _ _
      | (simp [tokenGetCount_cons, tokenGetCount_nil, isTokenGet]
         done)

/-! ## Claim C3 -/

/-- C3 counterexample: for chunk size 5 and file size 10, where the chunk
size divides the file size, the offsets actually sent are 0, 5, while the
claimed sequence "0, C, 2C, ..., S - (S mod C)" reads 0, 5, 10 — the
claimed formula names an offset that is never sent. -/
theorem c3_counterexample :
    chunkOffsetsOf (sendChunks wEnvOK 0 0 (chunked (List.replicate 10 0) 5)).1 = [0, 5] ∧
    specOffsets 10 5 = [0, 5, 10] ∧
    chunkOffsetsOf (sendChunks wEnvOK 0 0 (chunked (List.replicate 10 0) 5)).1 ≠
      specOffsets 10 5 := by
  exact ⟨by decide, by decide, by decide⟩

/-- C3 (amended): for a file of size S > 0 and chunk size C > 0 with every
chunk PATCH returning 204, the Upload-Offset values sent are exactly j·C
for j = 0, ..., ⌈S/C⌉ - 1 (so the progression ends at S - (S mod C) when C
does not divide S, and at S - C when it does), the chunk sent at offset
j·C has length min C (S - j·C), the last chunk's length is S mod C (or C
when C divides S evenly), and the chunk lengths sum to exactly S. -/
theorem c3_theorem (env : UEnv) (data : Bytes) (c : Nat)
    (hc : 0 < c) (hS : 0 < data.length) (h204 : ∀ i, env.chunkStatus i = 204) :
    (sendChunks env 0 0 (chunked data c)).1 =
      (List.range ((data.length + c - 1) / c)).map
        (fun j => UEv.chunk (j * c) (min c (data.length - j * c))) ∧
    ((chunked data c).map List.length).sum = data.length ∧
    min c (data.length - ((data.length + c - 1) / c - 1) * c) =
      (if data.length % c = 0 then c else data.length % c) := by
  refine ⟨?_, chunked_length_sum c (by omega) data,
    min_last_chunk c data.length (by omega) hS⟩
  have hne : data ≠ [] := by
    intro hdata
    subst hdata
    simp at hS
  have h := sendChunks_chunked env h204 c (by omega) data.length data (Nat.le_refl _) hne 0 0
  simpa using h

/-- C3 witness: chunk size 5, file size 12 — offsets 0, 5, 10; lengths 5,
5, 2; total 12. -/
theorem c3_witness :
    (sendChunks wEnvOK 0 0 (chunked (List.replicate 12 0) 5)).1 =
      [UEv.chunk 0 5, UEv.chunk 5 5, UEv.chunk 10 2] ∧
    ((chunked (List.replicate 12 0) 5).map List.length).sum = 12 := by
  have h := c3_theorem wEnvOK (List.replicate 12 0) 5 (by decide) (by decide) (fun i => rfl)
  refine ⟨?_, ?_⟩
  · rw [h.1]
    decide
  · have h2 := h.2.1
    simpa using h2

/-! ## Claim C4 -/

/-- C4 counterexample: with an initiate POST answering 500 instead of 201,
a run over two records terminates with the assertion error while
processing the first record — the second record is never reached, so the
failure is not contained to the single file. -/
theorem c4_counterexample :
    (upload wEnvBad [] "tr" [wSub "p1", wSub "p2"] [wFtVideo] wFs).2 =
      Except.error "AssertionError: initiate status != 201" ∧
    UEv.note "Uploading additional files for p2" ∉
      (upload wEnvBad [] "tr" [wSub "p1", wSub "p2"] [wFtVideo] wFs).1 := by
  exact ⟨rfl, by decide⟩

/-- C4 (amended): an unexpected status code at the initiate, chunk or
commit step raises an uncaught assertion error that makes the record's
processing fail, and any such failure aborts the entire run: the run ends
with that error, and the remaining records are never processed (the run
over `sub :: rest` equals the run over `[sub]`, whatever `rest` is). -/
theorem c4_theorem (env : UEnv) (rows : List UploadRow) (track_id : String)
    (sub : String → String) (rest : List (String → String)) (filetypes : List UFT)
    (fs0 : FS) (e : String)
    (h : (upload_submission env track_id sub filetypes
        ((get_uploaded_submissions rows false).map UploadRow.fileName) fs0).2 =
      Except.error e) :
    upload env rows track_id (sub :: rest) filetypes fs0 =
      upload env rows track_id [sub] filetypes fs0 ∧
    (upload env rows track_id (sub :: rest) filetypes fs0).2 = Except.error e := by
  constructor
  · simp only [upload, uploadLoop]
    rw [h]
  · simp only [upload, uploadLoop]
    rw [h]

/-- C4 witness: with the failing initiate POST of the counterexample
environment, the two-record run is literally the one-record run. -/
theorem c4_witness :
    upload wEnvBad [] "tr" [wSub "p1", wSub "p2"] [wFtVideo] wFs =
      upload wEnvBad [] "tr" [wSub "p1"] [wFtVideo] wFs :=
  (c4_theorem wEnvBad [] "tr" (wSub "p1") [wSub "p2"] [wFtVideo] wFs
    "AssertionError: initiate status != 201" rfl).1

/-! ## Claim C1 -/

/-- In "only modified" mode, the event trace of the per-file download
always starts with opening the URL. -/
theorem download_file_only_modified_urlOpen (env : DlEnv) (fs : FS)
    (pid url filename : String) :
    DEv.urlOpen url ∈ (download_file env fs pid url filename "only modified").1 := by
  simp only [download_file]
  repeat' split
  all_goals simp_all

/-- C1 counterexample: a two-record batch in which the first record's URL
fails remotely: the run stops with resume index 0 and the second record's
valid URL is never opened — the engine does not continue with the
remaining records. -/
theorem c1_counterexample :
    (download_files wDlEnv "c" wFsE [wSubBad, wSubGood] [wFtDl] 0 "only modified").2.2 =
      Except.ok (some 0) ∧
    DEv.urlOpen "http://good" ∉
      (download_files wDlEnv "c" wFsE [wSubBad, wSubGood] [wFtDl] 0 "only modified").1 := by
  exact ⟨rfl, by decide⟩

/-- C1 (amended): for a record whose URL field is present and non-empty, a
remote-side download failure yields a not-found outcome for that one file
(logged, no exception), but the batch engine then stops, returning the
index of the current record as a resume point: the run over `sub :: rest`
equals the run over `[sub]` whatever `rest` is, its result is the resume
index 0, and the filesystem is unchanged. -/
theorem c1_theorem (env : DlEnv) (conf : String) (fs : FS) (sub : Record)
    (rest : List Record) (ft : DlFT) (v pid title : String)
    (hv : sub.lookup ft.pcs_field = some v) (hlen : 1 < v.length)
    (hpid : sub.lookup "Paper ID" = some pid) (htitle : sub.lookup "Title" = some title)
    (hrem : env.remote v = none) :
    download_files env conf fs (sub :: rest) [ft] 0 "only modified" =
      download_files env conf fs [sub] [ft] 0 "only modified" ∧
    (download_files env conf fs (sub :: rest) [ft] 0 "only modified").2.2 =
      Except.ok (some 0) ∧
    DEv.note "file not found on server" ∈
      (download_files env conf fs (sub :: rest) [ft] 0 "only modified").1 ∧
    (download_files env conf fs (sub :: rest) [ft] 0 "only modified").2.1 = fs := by
  have hdf : download_file env fs pid v
      (conf ++ "_" ++ ft.directory ++ "/" ++ pid ++ ft.suffix) "only modified" =
      ([DEv.urlOpen v, DEv.note "file not found on server"], fs, false) := by
    simp [download_file, hrem]
  have hpf : processField env conf fs sub ft "only modified" =
      ([DEv.note ("Retrieving " ++ ft.description), DEv.urlOpen v,
        DEv.note "file not found on server", DEv.note "failed"], fs, false) := by
    simp only [processField, hv, hpid]
    rw [if_pos hlen, hdf]
    simp
  have hpfs : processFields env conf "only modified" fs sub [ft] =
      ([DEv.note ("Retrieving " ++ ft.description), DEv.urlOpen v,
        DEv.note "file not found on server", DEv.note "failed"], fs, false) := by
    simp only [processFields]
    rw [hpf]
    simp
  have hrun : ∀ (tail : List Record),
      downloadLoop env conf [ft] "only modified" fs 0 0 (sub :: tail) =
        (DEv.note ("[" ++ toString (0 : Nat) ++ "] Paper: " ++ pid ++ " (" ++ title ++ ")") ::
          [DEv.note ("Retrieving " ++ ft.description), DEv.urlOpen v,
           DEv.note "file not found on server", DEv.note "failed"],
         fs, Except.ok (some 0)) := by
    intro tail
    simp only [downloadLoop, hpid, htitle]
    rw [hpfs]
    simp
  refine ⟨?_, ?_, ?_, ?_⟩
  · simp only [download_files]
    rw [hrun rest, hrun ([] : List Record)]
  · simp only [download_files]
    rw [hrun rest]
  · simp only [download_files]
    rw [hrun rest]
    simp
  · simp only [download_files]
    rw [hrun rest]

/-- C1 witness: the amended claim at the concrete two-record batch. -/
theorem c1_witness :
    download_files wDlEnv "c" wFsE [wSubBad, wSubGood] [wFtDl] 0 "only modified" =
      download_files wDlEnv "c" wFsE [wSubBad] [wFtDl] 0 "only modified" :=
  (c1_theorem wDlEnv "c" wFsE wSubBad [wSubGood] wFtDl "http://bad" "p1" "t1"
    (by decide) (by decide) (by decide) (by decide) (by decide)).1

/-! ## Claim C5 -/

/-- C5: under the default "only modified" freshness policy, downloading the
same URL twice against an unchanged remote transfers the body exactly once:
the first call (no local file) streams the body and writes the file; the
second call finds the local size equal to the remote Content-Length,
reports the file as already downloaded, reads no body, and returns the
filesystem untouched. -/
theorem c5_theorem (env : DlEnv) (fs0 : FS) (pid url filename : String) (body : Bytes)
    (hrem : env.remote url = some body) (hfs : fs0 filename = none) :
    (download_file env fs0 pid url filename "only modified" =
      ([DEv.urlOpen url, DEv.readBody url], updateFS fs0 filename body, true)) ∧
    (download_file env (updateFS fs0 filename body) pid url filename "only modified" =
      ([DEv.urlOpen url, DEv.note "already downloaded"],
       updateFS fs0 filename body, true)) ∧
    ((download_file env fs0 pid url filename "only modified").1 ++
      (download_file env (updateFS fs0 filename body) pid url filename
        "only modified").1).count (DEv.readBody url) = 1 := by
  have h1 : download_file env fs0 pid url filename "only modified" =
      ([DEv.urlOpen url, DEv.readBody url], updateFS fs0 filename body, true) := by
    simp [download_file, hrem, hfs]
  have h2 : download_file env (updateFS fs0 filename body) pid url filename "only modified" =
      ([DEv.urlOpen url, DEv.note "already downloaded"],
       updateFS fs0 filename body, true) := by
    simp [download_file, hrem, updateFS]
  refine ⟨h1, h2, ?_⟩
  rw [h1, h2]
  simp [List.count_cons, List.count_append]

/-- C5 witness: the idempotent second download at a concrete URL and file. -/
theorem c5_witness :
    (download_file wDlEnv wFsE "p1" "http://good" "f.pdf" "only modified" =
      ([DEv.urlOpen "http://good", DEv.readBody "http://good"],
       updateFS wFsE "f.pdf" [1, 2, 3], true)) ∧
    (download_file wDlEnv (updateFS wFsE "f.pdf" [1, 2, 3]) "p1" "http://good" "f.pdf"
        "only modified" =
      ([DEv.urlOpen "http://good", DEv.note "already downloaded"],
       updateFS wFsE "f.pdf" [1, 2, 3], true)) ∧
    ((download_file wDlEnv wFsE "p1" "http://good" "f.pdf" "only modified").1 ++
      (download_file wDlEnv (updateFS wFsE "f.pdf" [1, 2, 3]) "p1" "http://good" "f.pdf"
        "only modified").1).count (DEv.readBody "http://good") = 1 :=
  c5_theorem wDlEnv wFsE "p1" "http://good" "f.pdf" [1, 2, 3] rfl rfl

/-! ## Claim C7 -/

/-- C7 counterexample: a record whose source field holds two spaces — a
present, whitespace-only value — is not reported as not submitted: the
engine attempts the download and opens the URL "  ". -/
theorem c7_counterexample :
    DEv.urlOpen "  " ∈
      (download_files wDlEnv "c" wFsE [wSubWS] [wFtDl] 0 "only modified").1 := by
  decide

/-- C7 (amended): when the descriptor's source field is absent from the
record's schema, the engine logs the schema-mismatch message and skips only
that field-type, continuing with the remaining descriptors unchanged; when
the field is present, the engine reports not submitted (and attempts no
download) exactly for values of length at most 1, while any present value
of length at least 2 — even all whitespace — triggers a download attempt
(the URL is opened). -/
theorem c7_theorem (env : DlEnv) (conf : String) (fs : FS) (sub : Record)
    (ft : DlFT) (mode : String) :
    (sub.lookup ft.pcs_field = none →
      processField env conf fs sub ft mode =
        ([DEv.note ("field " ++ ft.pcs_field ++ " not in CSV")], fs, true)) ∧
    (∀ rest, sub.lookup ft.pcs_field = none →
      processFields env conf mode fs sub (ft :: rest) =
        (DEv.note ("field " ++ ft.pcs_field ++ " not in CSV") ::
          (processFields env conf mode fs sub rest).1,
         (processFields env conf mode fs sub rest).2.1,
         (processFields env conf mode fs sub rest).2.2)) ∧
    (∀ v, sub.lookup ft.pcs_field = some v → v.length ≤ 1 →
      processField env conf fs sub ft mode =
        ([DEv.note (ft.description ++ " not submitted")], fs, true)) ∧
    (∀ v pid, sub.lookup ft.pcs_field = some v → 1 < v.length →
      sub.lookup "Paper ID" = some pid → mode = "only modified" →
      DEv.urlOpen v ∈ (processField env conf fs sub ft mode).1) := by
  refine ⟨?_, ?_, ?_, ?_⟩
  · intro h
    simp [processField, h]
  · intro rest h
    simp only [processFields]
    simp [processField, h]
  · intro v hv hle
    simp only [processField, hv]
    rw [if_neg (by omega)]
  · intro v pid hv hlt hpid hm
    subst hm
    simp only [processField, hv, hpid]
    rw [if_pos hlt]
    split <;> simp [download_file_only_modified_urlOpen]

/-- C7 witness: the two-space value triggers a download attempt, and an
absent field yields the schema-mismatch log with processing intact. -/
theorem c7_witness :
    DEv.urlOpen "  " ∈
      (processField wDlEnv "c" wFsE wSubWS wFtDl "only modified").1 ∧
    processField wDlEnv "c" wFsE [("Paper ID", "p1"), ("Title", "t1")] wFtDl
        "only modified" =
      ([DEv.note "field video not in CSV"], wFsE, true) := by
  constructor
  · exact (c7_theorem wDlEnv "c" wFsE wSubWS wFtDl "only modified").2.2.2
      "  " "p1" (by decide) (by decide) (by decide) rfl
  · exact (c7_theorem wDlEnv "c" wFsE [("Paper ID", "p1"), ("Title", "t1")] wFtDl
      "only modified").1 (by decide)

/-! ## Claim C6 -/

/-- C6: when the canonical upload filename (DOI part plus descriptor
suffix) is listed in the Already-Uploaded Index, the descriptor loop body
makes no upload attempt for that candidate: its trace contains no initiate
POST, no chunk PATCH, and no commit POST, regardless of the other
eligibility checks. -/
theorem c6_theorem (env : UEnv) (track_id : String) (sub : String → String)
    (doi doi_part : String) (already : List String) (fs : FS) (ft : UFT) (tk : String)
    (hdup : doi_part ++ ft.suffix ∈ already) (htok : env.token = some tk) :
    noUploadAttempt
      (processFiletype env track_id sub doi doi_part already ⟨none, fs⟩ ft).1 = true := by
  simp only [processFiletype]
  repeat' split
  all_goals
    first
      | (simp [noUploadAttempt, isUploadAttempt, srt_to_vtt_events, get_token_events]
         done)
      | simp_all [get_token, htok]

/-- C6 witness: the dedup skip at a concrete candidate. -/
theorem c6_witness :
    noUploadAttempt (processFiletype wEnvOK "tr" (wSub "p1") "10.1145/1.p1" "1.p1"
      ["1.p1.mp4"] ⟨none, wFs⟩ wFtVideo).1 = true :=
  c6_theorem wEnvOK "tr" (wSub "p1") "10.1145/1.p1" "1.p1" ["1.p1.mp4"] wFs wFtVideo
    "TOK" (by decide) rfl

/-! ## Claim C8 -/

/-- C8: for a descriptor whose upload policy names an agreement field: an
empty agreement field on the record skips the candidate with a single log
line — zero network events — and an unchanged state; a non-empty agreement
field together with an existing local file reaches token acquisition: the
token-page GET appears in the trace. -/
theorem c8_theorem (env : UEnv) (track_id : String) (sub : String → String)
    (doi doi_part : String) (already : List String) (fs : FS) (ft : UFT)
    (hno : ft.upload_to_dl ≠ "no") (hyes : ft.upload_to_dl ≠ "yes") :
    (sub ft.upload_to_dl = "" →
      processFiletype env track_id sub doi doi_part already ⟨none, fs⟩ ft =
        ([UEv.note ("Skipping " ++ ft.description ++ ": no agreement from authors")],
         Except.ok ⟨none, fs⟩) ∧
      noNetworkEv
        (processFiletype env track_id sub doi doi_part already ⟨none, fs⟩ ft).1 = true) ∧
    (∀ content, sub ft.upload_to_dl ≠ "" →
      fs (track_id ++ "_" ++ ft.directory ++ "/" ++ (sub "Paper ID" ++ ft.suffix)) =
        some content →
      UEv.tokenGet ∈
        (processFiletype env track_id sub doi doi_part already ⟨none, fs⟩ ft).1) := by
  constructor
  · intro hempty
    have heq : processFiletype env track_id sub doi doi_part already ⟨none, fs⟩ ft =
        ([UEv.note ("Skipping " ++ ft.description ++ ": no agreement from authors")],
         Except.ok ⟨none, fs⟩) := by
      simp only [processFiletype]
      rw [if_neg hno, if_pos ⟨hyes, hempty⟩]
    refine ⟨heq, ?_⟩
    rw [heq]
    simp [noNetworkEv, isNetworkEv]
  · intro content hne hfile
    simp only [processFiletype]
    rw [if_neg hno, if_neg (by intro hand; exact hne hand.2), hfile]
    repeat' split
    all_goals simp_all [get_token_events, srt_to_vtt_events]

/-- C8 witness: the agreement gate at concrete records — skip with the
empty consent field, token acquisition with consent set and the file
present. -/
theorem c8_witness :
    processFiletype wEnvOK "tr" (wSub "p1") "10.1145/1.p1" "1.p1" []
        ⟨none, wFs⟩ wFtAgree =
      ([UEv.note "Skipping Video Figure: no agreement from authors"],
       Except.ok ⟨none, wFs⟩) ∧
    UEv.tokenGet ∈
      (processFiletype wEnvOK "tr" wSubConsent "10.1145/1.p1" "1.p1" []
        ⟨none, wFs⟩ wFtAgree).1 := by
  constructor
  · exact ((c8_theorem wEnvOK "tr" (wSub "p1") "10.1145/1.p1" "1.p1" [] wFs wFtAgree
      (by decide) (by decide)).1 (by decide)).1
  · exact (c8_theorem wEnvOK "tr" wSubConsent "10.1145/1.p1" "1.p1" [] wFs wFtAgree
      (by decide) (by decide)).2 [1, 2] (by decide) (by decide)

/-! ## Claim C9 -/

/-- In the chunked upload, the initiate POST for the canonical filename is
always the first event of the per-file transfer. -/
theorem upload_file_initiate_mem (env : UEnv) (tok : String) (content : Bytes)
    (fn ufn ftp au em dd de : String) :
    UEv.initiate ufn ∈ (upload_file env tok content fn ufn ftp au em dd de).1 := by
  simp only [upload_file]
  repeat' split
  all_goals simp

/-- C9: the Already-Uploaded Index is built, by default, only from listing
rows not marked excluded, so a filename appearing only on excluded rows is
absent from the index — and an otherwise-eligible candidate with that
canonical upload filename is uploaded again (its initiate POST appears in
the trace) rather than skipped. -/
theorem c9_theorem (rows : List UploadRow) (X : String)
    (hX : ∀ r ∈ rows, r.fileName = X → r.excluded = true)
    (env : UEnv) (track_id : String) (sub : String → String) (doi doi_part : String)
    (fs : FS) (ft : UFT) (content : Bytes) (tk : String)
    (hname : doi_part ++ ft.suffix = X)
    (hpol : ft.upload_to_dl = "yes")
    (hfile : fs (track_id ++ "_" ++ ft.directory ++ "/" ++ (sub "Paper ID" ++ ft.suffix)) =
      some content)
    (htok : env.token = some tk) :
    X ∉ (get_uploaded_submissions rows false).map UploadRow.fileName ∧
    UEv.initiate X ∈
      (processFiletype env track_id sub doi doi_part
        ((get_uploaded_submissions rows false).map UploadRow.fileName)
        ⟨none, fs⟩ ft).1 := by
  have hnot : X ∉ (get_uploaded_submissions rows false).map UploadRow.fileName := by
    intro hmem
    simp only [get_uploaded_submissions, Bool.false_eq_true, if_false] at hmem
    rw [List.mem_map] at hmem
    obtain ⟨r, hr, hrX⟩ := hmem
    rw [List.mem_filter] at hr
    have hexc := hX r hr.1 hrX
    simp [hexc] at hr
  refine ⟨hnot, ?_⟩
  simp only [processFiletype]
  rw [if_neg (by simp [hpol]), if_neg (by simp [hpol]), hfile]
  simp only [get_token, htok]
  rw [hname, if_neg hnot]
  repeat' split
  all_goals simp_all [upload_file_initiate_mem, srt_to_vtt_events]

/-- C9 witness: a concrete listing with a single excluded row carrying the
candidate's filename — the candidate's initiate POST is sent. -/
theorem c9_witness :
    "1.p1.mp4" ∉
      (get_uploaded_submissions
        [⟨true, "p9", "d", "c", "e", "10.1145/1.p9", "desc", "1.p1.mp4", "u"⟩]
        false).map UploadRow.fileName ∧
    UEv.initiate "1.p1.mp4" ∈
      (processFiletype wEnvOK "tr" (wSub "p1") "10.1145/1.p1" "1.p1"
        ((get_uploaded_submissions
          [⟨true, "p9", "d", "c", "e", "10.1145/1.p9", "desc", "1.p1.mp4", "u"⟩]
          false).map UploadRow.fileName)
        ⟨none, wFs⟩ wFtVideo).1 :=
  c9_theorem
    [⟨true, "p9", "d", "c", "e", "10.1145/1.p9", "desc", "1.p1.mp4", "u"⟩]
    "1.p1.mp4" (by decide) wEnvOK "tr" (wSub "p1") "10.1145/1.p1" "1.p1"
    wFs wFtVideo [1, 2] "TOK" (by decide) rfl (by decide) rfl

/-! ## Claim C10 -/

/-- C10: a candidate whose local path ends in ".vtt" is converted in place
before the already-uploaded check: when the candidate passes the local
gates but its canonical upload filename is already uploaded, the trace is
exactly the conversion, the token GET, and the skip log — the file's bytes
are rewritten by the conversion while no upload attempt is made; and a
candidate skipped earlier (policy "no", missing agreement, or no local
file) returns the state — including the filesystem — entirely unchanged. -/
theorem c10_theorem (env : UEnv) (track_id : String) (sub : String → String)
    (doi doi_part : String) (already : List String) (fs : FS) (ft : UFT)
    (content : Bytes) (tk : String)
    (hvtt : strEndsWith (track_id ++ "_" ++ ft.directory ++ "/" ++
      (sub "Paper ID" ++ ft.suffix)) ".vtt" = true)
    (hpol : ft.upload_to_dl = "yes")
    (hfile : fs (track_id ++ "_" ++ ft.directory ++ "/" ++ (sub "Paper ID" ++ ft.suffix)) =
      some content)
    (htok : env.token = some tk)
    (hdup : doi_part ++ ft.suffix ∈ already) :
    (processFiletype env track_id sub doi doi_part already ⟨none, fs⟩ ft =
      ([UEv.vttConvert (track_id ++ "_" ++ ft.directory ++ "/" ++
          (sub "Paper ID" ++ ft.suffix)),
        UEv.tokenGet, UEv.note ("Already uploaded " ++ (doi_part ++ ft.suffix))],
       Except.ok ⟨some tk,
         updateFS fs (track_id ++ "_" ++ ft.directory ++ "/" ++
           (sub "Paper ID" ++ ft.suffix)) (env.vtt content)⟩)) ∧
    (∀ st ft', ft'.upload_to_dl = "no" →
      processFiletype env track_id sub doi doi_part already st ft' =
        ([UEv.note ("Skipping " ++ ft'.description ++ ": not to be uploaded to DL")],
         Except.ok st)) ∧
    (∀ st ft', ft'.upload_to_dl ≠ "yes" → ft'.upload_to_dl ≠ "no" →
      sub ft'.upload_to_dl = "" →
      processFiletype env track_id sub doi doi_part already st ft' =
        ([UEv.note ("Skipping " ++ ft'.description ++ ": no agreement from authors")],
         Except.ok st)) ∧
    (∀ st ft', ft'.upload_to_dl = "yes" →
      st.fs (track_id ++ "_" ++ ft'.directory ++ "/" ++ (sub "Paper ID" ++ ft'.suffix)) =
        none →
      processFiletype env track_id sub doi doi_part already st ft' =
        ([UEv.note ("No file for " ++ (track_id ++ "_" ++ ft'.directory ++ "/" ++
          (sub "Paper ID" ++ ft'.suffix)))],
         Except.ok st)) := by
  refine ⟨?_, ?_, ?_, ?_⟩
  · simp only [processFiletype]
    rw [if_neg (by simp [hpol]), if_neg (by simp [hpol]), hfile]
    simp only [get_token, htok]
    rw [if_pos hvtt]
    simp only [srt_to_vtt]
    rw [if_pos hdup]
    simp
  · intro st ft' h
    simp [processFiletype, h]
  · intro st ft' h1 h2 h3
    simp only [processFiletype]
    rw [if_neg h2, if_pos ⟨h1, h3⟩]
  · intro st ft' h1 h2
    simp only [processFiletype]
    rw [if_neg (by simp [h1]), if_neg (by simp [h1]), h2]

/-- C10 witness: the caption candidate of `p1`: converted in place, then
dedup-skipped with token acquired and the file rewritten. -/
theorem c10_witness :
    processFiletype wEnvOK "tr" (wSub "p1") "10.1145/1.p1" "1.p1" ["1.p1.vtt"]
        ⟨none, wFsV⟩ wFtCaption =
      ([UEv.vttConvert "tr_SUB/p1.vtt", UEv.tokenGet,
        UEv.note "Already uploaded 1.p1.vtt"],
       Except.ok ⟨some "TOK", updateFS wFsV "tr_SUB/p1.vtt" (wEnvOK.vtt [7])⟩) :=
  (c10_theorem wEnvOK "tr" (wSub "p1") "10.1145/1.p1" "1.p1" ["1.p1.vtt"]
    wFsV wFtCaption [7] "TOK" (by decide) rfl (by decide) rfl (by decide)).1

end PubTools
